import Mathlib

/-!
Verification development for the road-roughness recorder.

The source is a browser application: periodic GPS fixes and accelerometer
samples are fused into geotagged roughness estimates, which are merged into a
spatially deduplicated `RoughnessMap` store, bounded by a start/stop ride
state machine.

Modelling conventions:
* JS numbers are modelled as `ℚ` wherever the source performs only field
  arithmetic (variance, the high-pass filter, coordinates, rounding for the
  geo key), and as `ℝ` where the source uses trigonometry (the haversine
  distance `dist`, which therefore lives in `ℝ`; rational coordinates are
  cast at the call sites).  This idealises IEEE doubles by exact arithmetic;
  in particular the total functions below can neither throw nor produce NaN.
* Epoch-millisecond timestamps and ride identifiers (`Date.now()`) are `ℤ`.
* The IndexedDB object stores are modelled as lists of records with `put`
  acting as upsert on the key (`geoId` for `RoughnessMap`, `rideId` for
  `rides`, `id` for `rideDataPoints`), mirroring IndexedDB key semantics.
  `getAll` is modelled as returning the list in stored order; all concrete
  stores appearing in theorems below insert keys in ascending key order, so
  the stored order coincides with IndexedDB's ascending-key enumeration.
* The geo key `${lat.toFixed(4)}_${lon.toFixed(4)}` is modelled by the pair
  of half-up-rounded scaled integers; the string rendering (including the
  "-0.0000" corner of `toFixed` on tiny negatives) is not modelled, and no
  theorem below depends on it.
* `statusDiv.textContent` assignments are modelled by an inductive tag type;
  presentation-only statements (Leaflet layers, Chart.js, DOM counters,
  button enabling) have no state in the model.
* A failing persistence call inside `stopRide`'s transaction is modelled by
  the flag `dbFail`; a request error aborts the IndexedDB transaction, so on
  failure both stores are left unchanged (rollback) and the catch branch
  sets the error status.
-/

/-- `const PROXIMITY_RADIUS = 10` (meters), compared against the haversine
distance, hence modelled in `ℝ`. -/
noncomputable def PROXIMITY_RADIUS : ℝ := 10

/-- `const HPF_ALPHA = 0.8`. -/
def HPF_ALPHA : ℚ := 0.8

/-- `calculateVariance(arr)`: population variance, `0` on the empty array. -/
def calculateVariance (arr : List ℚ) : ℚ :=
  if arr = [] then 0
  else
    let mean := arr.foldl (fun s v => s + v) 0 / (arr.length : ℚ)
    arr.foldl (fun s v => s + (v - mean) ^ 2) 0 / (arr.length : ℚ)

/-- `getGeoId(lat, lon, prec = 4)`: the identity content of the string key
is the pair of coordinates rounded half-up at 4 decimals (scaled by 10^4). -/
def getGeoId (lat lon : ℚ) : ℤ × ℤ :=
  (round (lat * 10000), round (lon * 10000))

/-- `toRad(d)`. -/
noncomputable def toRad (d : ℝ) : ℝ := d * Real.pi / 180

open Classical in
/-- JS `Math.atan2(y, x)`. -/
noncomputable def atan2 (y x : ℝ) : ℝ :=
  if 0 < x then Real.arctan (y / x)
  else if x < 0 ∧ 0 ≤ y then Real.arctan (y / x) + Real.pi
  else if x < 0 ∧ y < 0 then Real.arctan (y / x) - Real.pi
  else if x = 0 ∧ 0 < y then Real.pi / 2
  else if x = 0 ∧ y < 0 then -(Real.pi / 2)
  else 0

/-- `dist(lat1, lon1, lat2, lon2)`: haversine great-circle distance in
meters, `R = 6371e3`. -/
noncomputable def dist (lat1 lon1 lat2 lon2 : ℝ) : ℝ :=
  let R : ℝ := 6371000
  let φ1 := toRad lat1
  let φ2 := toRad lat2
  let dphi := toRad (lat2 - lat1)
  let dlam := toRad (lon2 - lon1)
  let a := Real.sin (dphi / 2) ^ 2 +
    Real.cos φ1 * Real.cos φ2 * Real.sin (dlam / 2) ^ 2
  R * 2 * atan2 (Real.sqrt a) (Real.sqrt (1 - a))

/-- One GPS fix: `pos.coords` fields together with `pos.timestamp`. -/
structure GeoPosition where
  latitude : ℚ
  longitude : ℚ
  altitude : Option ℚ
  accuracy : ℚ
  timestamp : ℤ
deriving DecidableEq

/-- One fused observation, as built in `processCombinedDataPoint`. -/
structure RidePoint where
  id : String
  rideId : ℤ
  timestamp : ℤ
  latitude : ℚ
  longitude : ℚ
  altitude : Option ℚ
  accuracy : ℚ
  roughnessValue : ℚ
deriving DecidableEq

/-- One record of the `RoughnessMap` object store (keyed by `geoId`). -/
structure RoughnessMapEntry where
  geoId : ℤ × ℤ
  latitude : ℚ
  longitude : ℚ
  roughnessValue : ℚ
  lastUpdated : ℤ
deriving DecidableEq

/-- One record of the `rides` object store (keyed by `rideId`). -/
structure Ride where
  rideId : ℤ
  startTime : ℤ
  endTime : Option ℤ
  duration : ℤ
  totalDataPoints : ℕ
  status : String
deriving DecidableEq

/-- The distinct `statusDiv.textContent` assignments of the modelled
functions, as tags (the interpolated reading text keeps its numeric data). -/
inductive Status where
  | waitingGps
  | savingRide
  | rideSaved
  | errorSavingRide
  | requestingPermissions
  | recordingWaitingGps
  | reading (lat lon rough : ℚ)
deriving DecidableEq

/-- The module-level mutable state of the source, plus the three IndexedDB
object stores it reads and writes. -/
structure AppState where
  currentRideId : Option ℤ
  currentRideDataPoints : List RidePoint
  accelerometerBuffer : List ℚ
  latestGpsPosition : Option GeoPosition
  watchId : Option ℤ
  motionListenerActive : Bool
  dataCollectionInterval : Bool
  lastLowPassZ : ℚ
  rides : List Ride
  rideDataPoints : List RidePoint
  roughnessMap : List RoughnessMapEntry
  status : Status
deriving DecidableEq

/-- IndexedDB `put` on the `RoughnessMap` store: replace the record with the
same key, else append. -/
def putEntry : List RoughnessMapEntry → RoughnessMapEntry → List RoughnessMapEntry
  | [], e => [e]
  | x :: xs, e => if x.geoId = e.geoId then e :: xs else x :: putEntry xs e

open Classical in
/-- `all.find(pt => dist(...) <= PROXIMITY_RADIUS)` over the store contents. -/
noncomputable def findMatch (dp : RidePoint) :
    List RoughnessMapEntry → Option RoughnessMapEntry
  | [] => none
  | e :: es =>
    if dist e.latitude e.longitude dp.latitude dp.longitude ≤ PROXIMITY_RADIUS
    then some e else findMatch dp es

/-- `updateRoughnessMap(dp)`: merge one observation into the store.  On a
proximity hit the matched entry keeps its key but its coordinates, score and
timestamp are overwritten; on a miss a fresh entry keyed by `getGeoId` is
`put`. -/
noncomputable def updateRoughnessMap (store : List RoughnessMapEntry)
    (dp : RidePoint) : List RoughnessMapEntry :=
  match findMatch dp store with
  | some m => putEntry store
      { m with latitude := dp.latitude, longitude := dp.longitude,
               roughnessValue := dp.roughnessValue, lastUpdated := dp.timestamp }
  | none => putEntry store
      { geoId := getGeoId dp.latitude dp.longitude,
        latitude := dp.latitude, longitude := dp.longitude,
        roughnessValue := dp.roughnessValue, lastUpdated := dp.timestamp }

/-- `rides` store lookup by key. -/
def lookupRide (l : List Ride) (r : ℤ) : Option Ride :=
  l.find? (fun e => e.rideId == r)

/-- IndexedDB `put` on the `rides` store. -/
def putRide : List Ride → Ride → List Ride
  | [], e => [e]
  | x :: xs, e => if x.rideId = e.rideId then e :: xs else x :: putRide xs e

/-- IndexedDB `add` on the `rides` store: fails (aborting, hence leaving the
store unchanged) if the key is present, else appends. -/
def addRide (l : List Ride) (e : Ride) : List Ride :=
  if (lookupRide l e.rideId).isSome then l else l ++ [e]

/-- IndexedDB `put` on the `rideDataPoints` store (keyed by `id`). -/
def putDataPoint : List RidePoint → RidePoint → List RidePoint
  | [], e => [e]
  | x :: xs, e => if x.id = e.id then e :: xs else x :: putDataPoint xs e

/-- The `for (const dp of currentRideDataPoints) put(dp)` flush loop. -/
def flushDataPoints (store : List RidePoint) (pts : List RidePoint) :
    List RidePoint :=
  pts.foldl putDataPoint store

/-- `handleMotion(evt)`: `evt.accelerationIncludingGravity?.z` is `some z`
when a numeric vertical acceleration is present.  Updates the low-pass state
and appends the high-pass residual to the buffer. -/
def handleMotion (s : AppState) (z : Option ℚ) : AppState :=
  match z with
  | some z =>
    let l := HPF_ALPHA * s.lastLowPassZ + (1 - HPF_ALPHA) * z
    { s with lastLowPassZ := l,
             accelerometerBuffer := s.accelerometerBuffer ++ [z - l] }
  | none => s

/-- `gpsSuccess(pos)`: latest-wins slot for the freshest fix. -/
def gpsSuccess (s : AppState) (pos : GeoPosition) : AppState :=
  { s with latestGpsPosition := some pos }

/-- `processCombinedDataPoint()`: one fusion tick.  `newId` stands for the
`crypto.randomUUID()` result of this tick. -/
noncomputable def processCombinedDataPoint (s : AppState) (newId : String) :
    AppState :=
  match s.currentRideId, s.latestGpsPosition with
  | some rid, some pos =>
    let roughness := calculateVariance s.accelerometerBuffer
    let dp : RidePoint :=
      { id := newId, rideId := rid, timestamp := pos.timestamp,
        latitude := pos.latitude, longitude := pos.longitude,
        altitude := pos.altitude, accuracy := pos.accuracy,
        roughnessValue := roughness }
    { s with accelerometerBuffer := [],
             currentRideDataPoints := s.currentRideDataPoints ++ [dp],
             roughnessMap := updateRoughnessMap s.roughnessMap dp,
             status := Status.reading pos.latitude pos.longitude roughness }
  | _, _ => { s with status := Status.waitingGps }

/-- `startRide()`: no-op while a ride is active; otherwise allocates
`rideId = Date.now()` (the `now` argument), resets the in-memory buffers,
subscribes the sensors (`motionGranted` is the outcome of the optional
motion-permission request; a denial still proceeds), arms the interval and
`add`s the initial active `Ride` record.  The filter state `lastLowPassZ` is
not reset by the source. -/
def startRide (s : AppState) (now : ℤ) (motionGranted : Bool) : AppState :=
  match s.currentRideId with
  | some _ => s
  | none =>
    { s with
      currentRideId := some now,
      currentRideDataPoints := [],
      accelerometerBuffer := [],
      latestGpsPosition := none,
      watchId := some now,
      motionListenerActive := motionGranted,
      dataCollectionInterval := true,
      rides := addRide s.rides
        { rideId := now, startTime := now, endTime := none, duration := 0,
          totalDataPoints := 0, status := "active" },
      status := Status.recordingWaitingGps }

/-- `stopRide()`: no-op while idle; otherwise tears down the subscriptions
and the interval, flushes the buffered points and the final `Ride`
aggregate in one transaction (`now` models the `Date.now()` reads of the
finalisation, `dbFail` a failing persistence call, which aborts the
transaction and is caught), and clears the in-memory ride state on every
path. -/
def stopRide (s : AppState) (now : ℤ) (dbFail : Bool) : AppState :=
  match s.currentRideId with
  | none => s
  | some rid =>
    let s1 := { s with watchId := none, motionListenerActive := false,
                       dataCollectionInterval := false,
                       status := Status.savingRide }
    let s2 :=
      if dbFail then { s1 with status := Status.errorSavingRide }
      else
        match lookupRide s1.rides rid with
        | none =>
          { s1 with
            rideDataPoints :=
              flushDataPoints s1.rideDataPoints s.currentRideDataPoints,
            status := Status.errorSavingRide }
        | some rr =>
          { s1 with
            rideDataPoints :=
              flushDataPoints s1.rideDataPoints s.currentRideDataPoints,
            rides := putRide s1.rides
              { rr with endTime := some now,
                        duration := Int.fdiv (now - rr.startTime) 1000,
                        totalDataPoints := s.currentRideDataPoints.length,
                        status := "completed" },
            status := Status.rideSaved }
    { s2 with currentRideId := none, currentRideDataPoints := [],
              accelerometerBuffer := [], latestGpsPosition := none }

/-- The event alphabet of the modelled program: button presses, fusion
ticks, motion samples and GPS fixes, each carrying its environment inputs
(clock reading, permission outcome, fresh UUID, failure flag, sample). -/
inductive Op where
  | start (now : ℤ) (motionGranted : Bool)
  | stop (now : ℤ) (dbFail : Bool)
  | tick (newId : String)
  | motion (z : Option ℚ)
  | fix (pos : GeoPosition)

/-- One event step. -/
noncomputable def step (s : AppState) : Op → AppState
  | Op.start now g => startRide s now g
  | Op.stop now f => stopRide s now f
  | Op.tick newId => processCombinedDataPoint s newId
  | Op.motion z => handleMotion s z
  | Op.fix pos => gpsSuccess s pos

/-- Event-sequence execution. -/
noncomputable def steps (s : AppState) : List Op → AppState
  | [] => s
  | op :: ops => steps (step s op) ops

lemma foldl_add_eq_sum (l : List ℚ) (a : ℚ) :
    l.foldl (fun s v => s + v) a = a + l.sum := by
  induction l generalizing a with
  | nil => simp
  | cons x xs ih => simp [ih, add_assoc]

lemma foldl_add_sq_eq_sum (m : ℚ) (l : List ℚ) (a : ℚ) :
    l.foldl (fun s v => s + (v - m) ^ 2) a
      = a + (l.map (fun v => (v - m) ^ 2)).sum := by
  induction l generalizing a with
  | nil => simp
  | cons x xs ih => simp [ih, add_assoc]

/-- C4: the roughness estimator returns `0` on the empty sample sequence and
a non-negative value on every sample sequence.  As a total function on exact
rationals it can neither fail nor produce NaN on any buffer the motion
handler builds. -/
theorem calculateVariance_zero_and_nonneg :
    calculateVariance [] = 0 ∧ ∀ arr : List ℚ, 0 ≤ calculateVariance arr := by
  constructor
  · simp [calculateVariance]
  · intro arr
    by_cases h : arr = []
    · simp [calculateVariance, h]
    · simp only [calculateVariance, h, if_false]
      apply div_nonneg
      · rw [foldl_add_sq_eq_sum]
        have : 0 ≤ (arr.map (fun v =>
            (v - arr.foldl (fun s v => s + v) 0 / (arr.length : ℚ)) ^ 2)).sum := by
          apply List.sum_nonneg
          intro x hx
          obtain ⟨v, _, rfl⟩ := List.mem_map.1 hx
          positivity
        simpa using this
      · positivity

/-- C9: on a non-empty constant sample sequence the roughness estimator
returns exactly `0`. -/
theorem calculateVariance_replicate (n : ℕ) (c : ℚ) (h : 0 < n) :
    calculateVariance (List.replicate n c) = 0 := by
  have hne : List.replicate n c ≠ [] := by
    simp [List.replicate_eq_nil_iff]
    omega
  have hn : ((List.replicate n c).length : ℚ) = (n : ℚ) := by simp
  have hn0 : (n : ℚ) ≠ 0 := by
    have : n ≠ 0 := by omega
    exact_mod_cast this
  simp only [calculateVariance, hne, if_false, foldl_add_sq_eq_sum,
    foldl_add_eq_sum, zero_add, hn]
  have hmean : (List.replicate n c).sum / (n : ℚ) = c := by
    rw [List.sum_replicate, nsmul_eq_mul]
    field_simp
  rw [hmean]
  simp

/-- Witness for C9 at a concrete input. -/
theorem calculateVariance_replicate_witness :
    0 < 3 ∧ calculateVariance (List.replicate 3 (5 : ℚ)) = 0 :=
  ⟨by decide, calculateVariance_replicate 3 5 (by decide)⟩

lemma steps_append (s : AppState) (l1 l2 : List Op) :
    steps s (l1 ++ l2) = steps (steps s l1) l2 := by
  induction l1 generalizing s with
  | nil => simp [steps]
  | cons op ops ih => simp [steps, ih]

lemma steps_motion_replicate (c : ℚ) (n : ℕ) (s : AppState)
    (hL : s.lastLowPassZ = 0) :
    (steps s (List.replicate n (Op.motion (some c)))).accelerometerBuffer
        = s.accelerometerBuffer
          ++ (List.range n).map (fun i => HPF_ALPHA ^ (i + 1) * c)
      ∧ (steps s (List.replicate n (Op.motion (some c)))).lastLowPassZ
        = (1 - HPF_ALPHA ^ n) * c := by
  induction n with
  | zero => simp [steps, hL]
  | succ n ih =>
    obtain ⟨ihb, ihl⟩ := ih
    rw [List.replicate_succ' n (Op.motion (some c)), steps_append]
    constructor
    · simp only [steps, step, handleMotion, ihb, ihl, List.range_succ,
        List.map_append, List.map_cons, List.map_nil, List.append_assoc]
      congr 2
      ring_nf
    · simp only [steps, step, handleMotion, ihl]
      ring

/-- C8: the motion handler maintains the low-pass state by
`L ← α·L + (1-α)·x` with `α = HPF_ALPHA = 0.8` and emits `x - L`; starting
from filter state `0`, a constant input stream `c` produces the emission
sequence `α^1·c, α^2·c, …` (the n-th filtered output is `αⁿ·c`), which
converges to `0` as the sample count grows. -/
theorem handleMotion_constant_stream (n : ℕ) (c : ℚ) (s : AppState)
    (hL : s.lastLowPassZ = 0) :
    (steps s (List.replicate n (Op.motion (some c)))).accelerometerBuffer
        = s.accelerometerBuffer
          ++ (List.range n).map (fun i => HPF_ALPHA ^ (i + 1) * c)
      ∧ Filter.Tendsto (fun m : ℕ => ((HPF_ALPHA : ℝ)) ^ m * (c : ℝ))
          Filter.atTop (nhds 0) := by
  refine ⟨(steps_motion_replicate c n s hL).1, ?_⟩
  have h0 : (0 : ℝ) = 0 * (c : ℝ) := by ring
  rw [h0]
  apply Filter.Tendsto.mul_const
  apply tendsto_pow_atTop_nhds_zero_of_lt_one
  · norm_num [HPF_ALPHA]
  · norm_num [HPF_ALPHA]


/-- Unfolded form of the source `dist` (stated once so later proofs can
rewrite without being confused by the metric-space `dist` of the library). -/
lemma dist_unfold (lat1 lon1 lat2 lon2 : ℝ) :
    dist lat1 lon1 lat2 lon2
      = 6371000 * 2 * atan2
          (Real.sqrt (Real.sin (toRad (lat2 - lat1) / 2) ^ 2 +
            Real.cos (toRad lat1) * Real.cos (toRad lat2) *
              Real.sin (toRad (lon2 - lon1) / 2) ^ 2))
          (Real.sqrt (1 - (Real.sin (toRad (lat2 - lat1) / 2) ^ 2 +
            Real.cos (toRad lat1) * Real.cos (toRad lat2) *
              Real.sin (toRad (lon2 - lon1) / 2) ^ 2))) := rfl

/-- On two points sharing a longitude and with a small non-negative latitude
difference, the haversine distance reduces to arc length along the
meridian. -/
lemma dist_lat_eq (lat1 lat2 lon : ℝ) (h1 : lat1 ≤ lat2)
    (h2 : lat2 - lat1 ≤ 1) :
    dist lat1 lon lat2 lon = 6371000 * ((lat2 - lat1) * Real.pi / 180) := by
  have hpi := Real.pi_pos
  have hδ0 : 0 ≤ lat2 - lat1 := by linarith
  have hθ0 : 0 ≤ (lat2 - lat1) * Real.pi / 180 / 2 := by positivity
  have hθlt : (lat2 - lat1) * Real.pi / 180 / 2 < Real.pi / 2 := by nlinarith
  have hsin0 : 0 ≤ Real.sin ((lat2 - lat1) * Real.pi / 180 / 2) :=
    Real.sin_nonneg_of_nonneg_of_le_pi hθ0 (by linarith)
  have hcos : 0 < Real.cos ((lat2 - lat1) * Real.pi / 180 / 2) :=
    Real.cos_pos_of_mem_Ioo ⟨by linarith, hθlt⟩
  rw [dist_unfold]
  simp only [toRad, sub_self, zero_mul, zero_div, Real.sin_zero, ne_eq,
    OfNat.ofNat_ne_zero, not_false_eq_true, zero_pow, mul_zero, add_zero]
  rw [Real.sqrt_sq hsin0]
  rw [show (1 : ℝ) - Real.sin ((lat2 - lat1) * Real.pi / 180 / 2) ^ 2
      = Real.cos ((lat2 - lat1) * Real.pi / 180 / 2) ^ 2 from by
    rw [Real.cos_sq']]
  rw [Real.sqrt_sq hcos.le]
  rw [show atan2 (Real.sin ((lat2 - lat1) * Real.pi / 180 / 2))
        (Real.cos ((lat2 - lat1) * Real.pi / 180 / 2))
      = (lat2 - lat1) * Real.pi / 180 / 2 from by
    simp only [atan2, hcos, if_pos]
    rw [← Real.tan_eq_sin_div_cos]
    exact Real.arctan_tan (by linarith) hθlt]
  ring

/-- The haversine distance from a point to itself is `0`. -/
lemma dist_same_point (lat lon : ℝ) : dist lat lon lat lon = 0 := by
  have := dist_lat_eq lat lat lon le_rfl (by norm_num)
  simpa using this

/-- The haversine distance is symmetric in its two points. -/
lemma dist_swap_points (lat1 lon1 lat2 lon2 : ℝ) :
    dist lat1 lon1 lat2 lon2 = dist lat2 lon2 lat1 lon1 := by
  have hs : ∀ x y : ℝ,
      Real.sin ((x - y) * Real.pi / 180 / 2) ^ 2
        = Real.sin ((y - x) * Real.pi / 180 / 2) ^ 2 := by
    intro x y
    rw [show (x - y) * Real.pi / 180 / 2
        = -((y - x) * Real.pi / 180 / 2) by ring, Real.sin_neg]
    ring
  rw [dist_unfold, dist_unfold]
  simp only [toRad]
  rw [hs lat2 lat1, hs lon2 lon1,
    mul_comm (Real.cos (lat1 * Real.pi / 180)) (Real.cos (lat2 * Real.pi / 180))]

lemma putEntry_of_key_absent (l : List RoughnessMapEntry)
    (x : RoughnessMapEntry) (h : ∀ e ∈ l, e.geoId ≠ x.geoId) :
    putEntry l x = l ++ [x] := by
  induction l with
  | nil => simp [putEntry]
  | cons a as ih =>
    have ha : a.geoId ≠ x.geoId := h a (by simp)
    simp only [putEntry, ha, if_false, List.cons_append, List.cons.injEq,
      true_and]
    exact ih fun e he => h e (by simp [he])

lemma map_update_of_key_absent (l : List RoughnessMapEntry) (k : ℤ × ℤ)
    (y : RoughnessMapEntry) (h : ∀ e ∈ l, e.geoId ≠ k) :
    l.map (fun e => if e.geoId = k then y else e) = l := by
  induction l with
  | nil => simp
  | cons a as ih =>
    have ha : a.geoId ≠ k := h a (by simp)
    simp only [List.map_cons, ha, if_false, List.cons.injEq, true_and]
    exact ih fun e he => h e (by simp [he])

/-- With unique keys, `put` of a record carrying the key of a member `m`
rewrites exactly `m`'s slot. -/
lemma putEntry_eq_map (l : List RoughnessMapEntry) (m x : RoughnessMapEntry)
    (hk : (l.map RoughnessMapEntry.geoId).Nodup) (hm : m ∈ l)
    (hx : x.geoId = m.geoId) :
    putEntry l x = l.map (fun e => if e.geoId = m.geoId then x else e) := by
  induction l with
  | nil => simp at hm
  | cons a as ih =>
    simp only [List.map_cons, List.nodup_cons] at hk
    by_cases ha : a.geoId = x.geoId
    · have ham : a.geoId = m.geoId := by rw [ha, hx]
      have htail : ∀ e ∈ as, e.geoId ≠ m.geoId := by
        intro e he hcontra
        exact hk.1 (ham ▸ hcontra ▸ List.mem_map_of_mem RoughnessMapEntry.geoId he)
      simp only [putEntry, ha, eq_self_iff_true, if_true, List.map_cons]
      rw [if_pos hx, map_update_of_key_absent as m.geoId x htail]
    · have ham : a.geoId ≠ m.geoId := by rw [← hx]; exact ha
      have hmas : m ∈ as := by
        rcases List.mem_cons.1 hm with h | h
        · exact absurd (congrArg RoughnessMapEntry.geoId h.symm) ham
        · exact h
      simp only [putEntry, ha, if_false, List.map_cons, ham, if_false,
        List.cons.injEq, true_and]
      exact ih hk.2 hmas

lemma findMatch_eq_none (dp : RidePoint) (l : List RoughnessMapEntry)
    (h : ∀ e ∈ l, ¬ dist e.latitude e.longitude dp.latitude dp.longitude
      ≤ PROXIMITY_RADIUS) :
    findMatch dp l = none := by
  induction l with
  | nil => rfl
  | cons a as ih =>
    have ha := h a (by simp)
    simp only [findMatch, ha, if_false]
    exact ih fun e he => h e (by simp [he])

lemma findMatch_some_mem (dp : RidePoint) (l : List RoughnessMapEntry)
    (m : RoughnessMapEntry) (h : findMatch dp l = some m) :
    m ∈ l ∧ dist m.latitude m.longitude dp.latitude dp.longitude
      ≤ PROXIMITY_RADIUS := by
  induction l with
  | nil => simp [findMatch] at h
  | cons a as ih =>
    by_cases ha : dist a.latitude a.longitude dp.latitude dp.longitude
        ≤ PROXIMITY_RADIUS
    · simp only [findMatch, ha, if_pos, Option.some.injEq] at h
      subst h
      exact ⟨by simp, ha⟩
    · simp only [findMatch, ha, if_false] at h
      obtain ⟨hmem, hd⟩ := ih h
      exact ⟨by simp [hmem], hd⟩

/-- Shared shape of the miss branch: an observation farther than the radius
from every entry, whose derived key is fresh, is appended as a new entry. -/
lemma updateRoughnessMap_miss (store : List RoughnessMapEntry) (dp : RidePoint)
    (hmiss : ∀ e ∈ store,
      ¬ dist e.latitude e.longitude dp.latitude dp.longitude ≤ PROXIMITY_RADIUS)
    (hkey : ∀ e ∈ store, e.geoId ≠ getGeoId dp.latitude dp.longitude) :
    updateRoughnessMap store dp = store ++
      [{ geoId := getGeoId dp.latitude dp.longitude,
         latitude := dp.latitude, longitude := dp.longitude,
         roughnessValue := dp.roughnessValue, lastUpdated := dp.timestamp }] := by
  rw [updateRoughnessMap, findMatch_eq_none dp store hmiss]
  exact putEntry_of_key_absent store _ hkey

lemma findMatch_none_forall (dp : RidePoint) (l : List RoughnessMapEntry)
    (h : findMatch dp l = none) :
    ∀ e ∈ l, ¬ dist e.latitude e.longitude dp.latitude dp.longitude
      ≤ PROXIMITY_RADIUS := by
  induction l with
  | nil => simp
  | cons a as ih =>
    by_cases ha : dist a.latitude a.longitude dp.latitude dp.longitude
        ≤ PROXIMITY_RADIUS
    · simp [findMatch, ha] at h
    · simp only [findMatch, ha, if_false] at h
      intro e he
      rcases List.mem_cons.1 he with rfl | he
      · exact ha
      · exact ih h e he

/-- C1 (amended): if the observation lies within `PROXIMITY_RADIUS` of
exactly one existing entry `m` of a store with unique keys, the merge
rewrites exactly `m`'s slot, overwriting its coordinates, score and
timestamp with the observation's values (the stored score is the new score,
not a blend), the entry count is unchanged, and afterwards the rewritten
entry is the only one within `PROXIMITY_RADIUS` of the observation.  (The
unamended claim, quantifying over stores where the observation may match
several entries, is refuted by
`updateRoughnessMap_two_matches_counterexample`.) -/
theorem updateRoughnessMap_unique_hit (store : List RoughnessMapEntry)
    (dp : RidePoint) (m : RoughnessMapEntry)
    (hk : (store.map RoughnessMapEntry.geoId).Nodup)
    (hmem : m ∈ store)
    (hnear : dist m.latitude m.longitude dp.latitude dp.longitude
      ≤ PROXIMITY_RADIUS)
    (huniq : ∀ e ∈ store,
      dist e.latitude e.longitude dp.latitude dp.longitude ≤ PROXIMITY_RADIUS
        → e = m) :
    updateRoughnessMap store dp
      = store.map (fun e => if e.geoId = m.geoId then
          { m with latitude := dp.latitude, longitude := dp.longitude,
                   roughnessValue := dp.roughnessValue,
                   lastUpdated := dp.timestamp } else e)
    ∧ { m with latitude := dp.latitude, longitude := dp.longitude,
               roughnessValue := dp.roughnessValue,
               lastUpdated := dp.timestamp } ∈ updateRoughnessMap store dp
    ∧ (updateRoughnessMap store dp).length = store.length
    ∧ ∀ e ∈ updateRoughnessMap store dp,
        dist e.latitude e.longitude dp.latitude dp.longitude ≤ PROXIMITY_RADIUS
          → e = { m with latitude := dp.latitude, longitude := dp.longitude,
                         roughnessValue := dp.roughnessValue,
                         lastUpdated := dp.timestamp } := by
  have hmatch : ∃ m0, findMatch dp store = some m0 := by
    cases h : findMatch dp store with
    | none => exact absurd hnear (findMatch_none_forall dp store h m hmem)
    | some m0 => exact ⟨m0, rfl⟩
  obtain ⟨m0, hm0⟩ := hmatch
  obtain ⟨hm0mem, hm0near⟩ := findMatch_some_mem dp store m0 hm0
  have hm0m : m0 = m := huniq m0 hm0mem hm0near
  subst hm0m
  have hupd : updateRoughnessMap store dp
      = store.map (fun e => if e.geoId = m0.geoId then
          { m0 with latitude := dp.latitude, longitude := dp.longitude,
                    roughnessValue := dp.roughnessValue,
                    lastUpdated := dp.timestamp } else e) := by
    rw [updateRoughnessMap, hm0]
    exact putEntry_eq_map store m0 _ hk hmem rfl
  refine ⟨hupd, ?_, ?_, ?_⟩
  · rw [hupd]
    refine List.mem_map.2 ⟨m0, hmem, ?_⟩
    simp
  · rw [hupd, List.length_map]
  · rw [hupd]
    intro e he hdist
    obtain ⟨e0, he0, rfl⟩ := List.mem_map.1 he
    by_cases hc : e0.geoId = m0.geoId
    · simp [hc]
    · simp only [hc, if_false] at hdist ⊢
      have : e0 = m0 := huniq e0 he0 hdist
      exact absurd (congrArg RoughnessMapEntry.geoId this) hc

/-- Witness for C1 (amended): merging an observation at the coordinates of
the single stored entry rewrites that entry in place. -/
theorem updateRoughnessMap_unique_hit_witness :
    updateRoughnessMap [⟨(0, 0), 1, 2, 3, 4⟩]
        ⟨"w", 7, 99, 1, 2, none, 5, 42⟩
      = [⟨(0, 0), 1, 2, 42, 99⟩] := by
  have h := (updateRoughnessMap_unique_hit
    [⟨(0, 0), 1, 2, 3, 4⟩] ⟨"w", 7, 99, 1, 2, none, 5, 42⟩
    ⟨(0, 0), 1, 2, 3, 4⟩
    (by simp)
    (by simp)
    (by simpa using (by rw [dist_same_point]; norm_num [PROXIMITY_RADIUS] :
      dist ((1 : ℚ) : ℝ) ((2 : ℚ) : ℝ) ((1 : ℚ) : ℝ) ((2 : ℚ) : ℝ)
        ≤ PROXIMITY_RADIUS))
    (by intro e he _; simpa using he)).1
  simpa using h

lemma dist_q_000085 :
    dist ((0 : ℚ) : ℝ) ((0 : ℚ) : ℝ) ((0.000085 : ℚ) : ℝ) ((0 : ℚ) : ℝ)
      ≤ PROXIMITY_RADIUS := by
  have h1 : ((0.000085 : ℚ) : ℝ) = (0.000085 : ℝ) := by norm_num
  have h0 : ((0 : ℚ) : ℝ) = (0 : ℝ) := by norm_num
  rw [h1, h0, dist_lat_eq 0 0.000085 0 (by norm_num) (by norm_num)]
  simp only [PROXIMITY_RADIUS]
  nlinarith [Real.pi_lt_d2]

lemma dist_q_00017_far :
    ¬ dist ((0 : ℚ) : ℝ) ((0 : ℚ) : ℝ) ((0.00017 : ℚ) : ℝ) ((0 : ℚ) : ℝ)
      ≤ PROXIMITY_RADIUS := by
  have h1 : ((0.00017 : ℚ) : ℝ) = (0.00017 : ℝ) := by norm_num
  have h0 : ((0 : ℚ) : ℝ) = (0 : ℝ) := by norm_num
  rw [h1, h0, dist_lat_eq 0 0.00017 0 (by norm_num) (by norm_num), not_le]
  simp only [PROXIMITY_RADIUS]
  nlinarith [Real.pi_gt_three]

lemma dist_q_000085_00017 :
    dist ((0.000085 : ℚ) : ℝ) ((0 : ℚ) : ℝ) ((0.00017 : ℚ) : ℝ) ((0 : ℚ) : ℝ)
      ≤ PROXIMITY_RADIUS := by
  have h1 : ((0.000085 : ℚ) : ℝ) = (0.000085 : ℝ) := by norm_num
  have h2 : ((0.00017 : ℚ) : ℝ) = (0.00017 : ℝ) := by norm_num
  have h0 : ((0 : ℚ) : ℝ) = (0 : ℝ) := by norm_num
  rw [h1, h2, h0, dist_lat_eq 0.000085 0.00017 0 (by norm_num) (by norm_num)]
  simp only [PROXIMITY_RADIUS]
  nlinarith [Real.pi_lt_d2]

def c1entryA : RoughnessMapEntry := ⟨(0, 0), 0, 0, 2, 0⟩
def c1entryB : RoughnessMapEntry := ⟨(2, 0), 0.00017, 0, 3, 0⟩
def c1obs : RidePoint := ⟨"x", 1, 50, 0.000085, 0, none, 1, 9⟩
def c1entryA' : RoughnessMapEntry := ⟨(0, 0), 0.000085, 0, 9, 50⟩

/-- Counterexample to C1 as stated: the store `[A, B]` (`A` at latitude `0`,
`B` at latitude `0.00017`, about `18.9` m apart, so the store even satisfies
the pairwise separation invariant) receives an observation at latitude
`0.000085`, about `9.45` m from both entries.  The observation is within
`PROXIMITY_RADIUS` of an existing entry, the merge rewrites the first match
`A` — but afterwards two distinct entries (`A` moved onto the observation,
and the untouched `B`) lie within `PROXIMITY_RADIUS` of the observation,
not exactly one. -/
theorem updateRoughnessMap_two_matches_counterexample :
    List.Pairwise (fun e1 e2 : RoughnessMapEntry =>
      ¬ dist e1.latitude e1.longitude e2.latitude e2.longitude
        ≤ PROXIMITY_RADIUS) [c1entryA, c1entryB]
    ∧ dist c1entryA.latitude c1entryA.longitude c1obs.latitude c1obs.longitude
      ≤ PROXIMITY_RADIUS
    ∧ updateRoughnessMap [c1entryA, c1entryB] c1obs = [c1entryA', c1entryB]
    ∧ c1entryA' ≠ c1entryB
    ∧ dist c1entryA'.latitude c1entryA'.longitude c1obs.latitude c1obs.longitude
      ≤ PROXIMITY_RADIUS
    ∧ dist c1entryB.latitude c1entryB.longitude c1obs.latitude c1obs.longitude
      ≤ PROXIMITY_RADIUS := by
  have hnearA : dist c1entryA.latitude c1entryA.longitude
      c1obs.latitude c1obs.longitude ≤ PROXIMITY_RADIUS := by
    simp only [c1entryA, c1obs]
    exact dist_q_000085
  have hf : findMatch c1obs [c1entryA, c1entryB] = some c1entryA := by
    simp only [findMatch]
    rw [if_pos hnearA]
  refine ⟨?_, hnearA, ?_, ?_, ?_, ?_⟩
  · refine List.pairwise_cons.2 ⟨?_, by simp⟩
    intro e he
    simp only [List.mem_singleton] at he
    subst he
    simp only [c1entryA, c1entryB]
    exact dist_q_00017_far
  · rw [updateRoughnessMap, hf]
    simp [putEntry, c1entryA, c1entryB, c1entryA', c1obs]
  · simp [c1entryA', c1entryB]
  · have : dist ((0.000085 : ℚ) : ℝ) ((0 : ℚ) : ℝ) ((0.000085 : ℚ) : ℝ)
        ((0 : ℚ) : ℝ) ≤ PROXIMITY_RADIUS := by
      rw [dist_same_point]
      norm_num [PROXIMITY_RADIUS]
    simpa [c1entryA', c1obs] using this
  · simp only [c1entryB, c1obs]
    rw [dist_swap_points]
    exact dist_q_000085_00017

/-- C2 (amended): the separation invariant (no two entries within
`PROXIMITY_RADIUS` of each other) is preserved by every merge that creates
a new entry — an observation farther than the radius from every stored
entry, with a fresh derived key.  It is NOT preserved by merges that hit an
existing entry: a hit moves the matched centroid onto the observation,
which can lie within the radius of another entry, so from the empty store a
sequence of merges can end with two entries within `PROXIMITY_RADIUS`
(`roughnessMap_separation_counterexample`). -/
theorem updateRoughnessMap_miss_preserves_separation
    (store : List RoughnessMapEntry) (dp : RidePoint)
    (hmiss : ∀ e ∈ store,
      ¬ dist e.latitude e.longitude dp.latitude dp.longitude ≤ PROXIMITY_RADIUS)
    (hkey : ∀ e ∈ store, e.geoId ≠ getGeoId dp.latitude dp.longitude)
    (hsep : List.Pairwise (fun e1 e2 =>
      ¬ dist e1.latitude e1.longitude e2.latitude e2.longitude
        ≤ PROXIMITY_RADIUS) store) :
    List.Pairwise (fun e1 e2 =>
      ¬ dist e1.latitude e1.longitude e2.latitude e2.longitude
        ≤ PROXIMITY_RADIUS) (updateRoughnessMap store dp) := by
  rw [updateRoughnessMap_miss store dp hmiss hkey]
  refine List.pairwise_append.2 ⟨hsep, by simp, ?_⟩
  intro a ha b hb
  simp only [List.mem_singleton] at hb
  subst hb
  exact hmiss a ha

/-- Witness for C2 (amended): merging one observation into the empty store
yields a separated one-entry store. -/
theorem updateRoughnessMap_miss_preserves_separation_witness :
    List.Pairwise (fun e1 e2 : RoughnessMapEntry =>
      ¬ dist e1.latitude e1.longitude e2.latitude e2.longitude
        ≤ PROXIMITY_RADIUS)
      (updateRoughnessMap [] ⟨"w", 1, 5, 0, 0, none, 1, 2⟩) :=
  updateRoughnessMap_miss_preserves_separation []
    ⟨"w", 1, 5, 0, 0, none, 1, 2⟩ (by simp) (by simp) (by simp)

def c2obs1 : RidePoint := ⟨"a", 1, 10, 0, 0, none, 5, 1⟩
def c2obs2 : RidePoint := ⟨"b", 1, 20, 0.00017, 0, none, 5, 2⟩
def c2obs3 : RidePoint := ⟨"c", 1, 30, 0.000085, 0, none, 5, 3⟩
def c2entry1 : RoughnessMapEntry := ⟨(0, 0), 0, 0, 1, 10⟩
def c2entry2 : RoughnessMapEntry := ⟨(2, 0), 0.00017, 0, 2, 20⟩
def c2entry1' : RoughnessMapEntry := ⟨(0, 0), 0.000085, 0, 3, 30⟩

/-- Counterexample to C2 as stated: from the empty store, three merges
(observations at latitudes `0`, `0.00017` and `0.000085` on the meridian
`0`) end with two distinct entries within `PROXIMITY_RADIUS` of each other.
The two-entry store reached after the second merge satisfies the pairwise
separation invariant, and the third merge — a hit on the first entry, which
drags its centroid to latitude `0.000085`, about `9.45` m from the second
entry — breaks it. -/
theorem roughnessMap_separation_counterexample :
    List.Pairwise (fun e1 e2 : RoughnessMapEntry =>
      ¬ dist e1.latitude e1.longitude e2.latitude e2.longitude
        ≤ PROXIMITY_RADIUS)
      (updateRoughnessMap (updateRoughnessMap [] c2obs1) c2obs2)
    ∧ updateRoughnessMap
        (updateRoughnessMap (updateRoughnessMap [] c2obs1) c2obs2) c2obs3
      = [c2entry1', c2entry2]
    ∧ c2entry1' ≠ c2entry2
    ∧ dist c2entry1'.latitude c2entry1'.longitude
        c2entry2.latitude c2entry2.longitude ≤ PROXIMITY_RADIUS := by
  have s1 : updateRoughnessMap [] c2obs1 = [c2entry1] := by
    rw [updateRoughnessMap_miss [] c2obs1 (by simp) (by simp)]
    simp [c2obs1, c2entry1, getGeoId]
  have s2 : updateRoughnessMap [c2entry1] c2obs2 = [c2entry1, c2entry2] := by
    rw [updateRoughnessMap_miss [c2entry1] c2obs2 ?_ ?_]
    · norm_num [c2obs2, c2entry1, c2entry2, getGeoId, round_eq]
    · intro e he
      simp only [List.mem_singleton] at he
      subst he
      simp only [c2entry1, c2obs2]
      exact dist_q_00017_far
    · intro e he
      simp only [List.mem_singleton] at he
      subst he
      have hg : getGeoId c2obs2.latitude c2obs2.longitude = (2, 0) := by
        norm_num [c2obs2, getGeoId, round_eq]
      rw [hg]
      decide
  have s3 : updateRoughnessMap [c2entry1, c2entry2] c2obs3
      = [c2entry1', c2entry2] := by
    have hf : findMatch c2obs3 [c2entry1, c2entry2] = some c2entry1 := by
      simp only [findMatch]
      rw [if_pos (by simp only [c2entry1, c2obs3]; exact dist_q_000085)]
    rw [updateRoughnessMap, hf]
    simp [putEntry, c2entry1, c2entry2, c2entry1', c2obs3]
  refine ⟨?_, ?_, ?_, ?_⟩
  · rw [s1, s2]
    refine List.pairwise_cons.2 ⟨?_, by simp⟩
    intro e he
    simp only [List.mem_singleton] at he
    subst he
    simp only [c2entry1, c2entry2]
    exact dist_q_00017_far
  · rw [s1, s2, s3]
  · simp [c2entry1', c2entry2]
  · simp only [c2entry1', c2entry2]
    exact dist_q_000085_00017

/-- C3 (amended): an observation farther than `PROXIMITY_RADIUS` from every
stored entry creates exactly one new entry, keyed by the 4-decimal
coordinate-derived identifier, and the entry count increases by exactly 1 —
PROVIDED no existing entry already carries that derived key.  If a
previously merged entry has drifted away from the coordinates its key was
derived from, a later far-away observation can re-derive the same key, and
the keyed `put` then overwrites that entry instead of adding one
(`updateRoughnessMap_key_collision_counterexample`). -/
theorem updateRoughnessMap_no_match_creates (store : List RoughnessMapEntry)
    (dp : RidePoint)
    (hmiss : ∀ e ∈ store,
      ¬ dist e.latitude e.longitude dp.latitude dp.longitude ≤ PROXIMITY_RADIUS)
    (hkey : ∀ e ∈ store, e.geoId ≠ getGeoId dp.latitude dp.longitude) :
    updateRoughnessMap store dp = store ++
      [⟨getGeoId dp.latitude dp.longitude, dp.latitude, dp.longitude,
        dp.roughnessValue, dp.timestamp⟩]
    ∧ (updateRoughnessMap store dp).length = store.length + 1 := by
  have h := updateRoughnessMap_miss store dp hmiss hkey
  exact ⟨h, by rw [h]; simp⟩

/-- Witness for C3 (amended): merging into the empty store yields one
entry. -/
theorem updateRoughnessMap_no_match_creates_witness :
    (updateRoughnessMap [] ⟨"n", 3, 40, 1, 2, none, 1, 6⟩).length
      = List.length ([] : List RoughnessMapEntry) + 1 :=
  (updateRoughnessMap_no_match_creates [] ⟨"n", 3, 40, 1, 2, none, 1, 6⟩
    (by simp) (by simp)).2

lemma dist_q_00023_far :
    ¬ dist ((0.0023 : ℚ) : ℝ) ((0 : ℚ) : ℝ) ((0.0001 : ℚ) : ℝ) ((0 : ℚ) : ℝ)
      ≤ PROXIMITY_RADIUS := by
  have h1 : ((0.0023 : ℚ) : ℝ) = (0.0023 : ℝ) := by norm_num
  have h2 : ((0.0001 : ℚ) : ℝ) = (0.0001 : ℝ) := by norm_num
  have h0 : ((0 : ℚ) : ℝ) = (0 : ℝ) := by norm_num
  rw [h1, h2, h0, dist_swap_points,
    dist_lat_eq 0.0001 0.0023 0 (by norm_num) (by norm_num), not_le]
  simp only [PROXIMITY_RADIUS]
  nlinarith [Real.pi_gt_three]

def c3entry : RoughnessMapEntry := ⟨(1, 0), 0.0023, 0, 2, 100⟩
def c3obs : RidePoint := ⟨"y", 1, 50, 0.0001, 0, none, 1, 7⟩
def c3new : RoughnessMapEntry := ⟨(1, 0), 0.0001, 0, 7, 50⟩

/-- Counterexample to C3 as stated: the store holds one entry whose key
`(1, 0)` was derived at creation but whose centroid has since drifted to
latitude `0.0023` (the merge-on-hit never re-keys).  A new observation at
latitude `0.0001` is farther than `PROXIMITY_RADIUS` from that centroid
(about 245 m), so the claim asserts the entry count grows from 1 to 2 — but
`getGeoId` derives the same key `(1, 0)`, the keyed `put` overwrites the
drifted entry, and the count stays 1. -/
theorem updateRoughnessMap_key_collision_counterexample :
    (¬ dist c3entry.latitude c3entry.longitude c3obs.latitude c3obs.longitude
      ≤ PROXIMITY_RADIUS)
    ∧ updateRoughnessMap [c3entry] c3obs = [c3new]
    ∧ (updateRoughnessMap [c3entry] c3obs).length = 1 := by
  have hfar : ¬ dist c3entry.latitude c3entry.longitude
      c3obs.latitude c3obs.longitude ≤ PROXIMITY_RADIUS := by
    simp only [c3entry, c3obs]
    exact dist_q_00023_far
  have hn : findMatch c3obs [c3entry] = none := by
    apply findMatch_eq_none
    intro e he
    simp only [List.mem_singleton] at he
    subst he
    exact hfar
  have hupd : updateRoughnessMap [c3entry] c3obs = [c3new] := by
    rw [updateRoughnessMap, hn]
    have hg : getGeoId (0.0001 : ℚ) 0 = (1, 0) := by
      norm_num [getGeoId, round_eq]
    simp [putEntry, c3entry, c3new, c3obs, hg]
  exact ⟨hfar, hupd, by rw [hupd]; rfl⟩

lemma lookupRide_cons_ne (a : Ride) (l : List Ride) (q : ℤ)
    (h : a.rideId ≠ q) : lookupRide (a :: l) q = lookupRide l q := by
  unfold lookupRide
  rw [List.find?_cons_of_neg]
  simp [h]

lemma lookupRide_cons_eq (a : Ride) (l : List Ride) (q : ℤ)
    (h : a.rideId = q) : lookupRide (a :: l) q = some a := by
  unfold lookupRide
  rw [List.find?_cons_of_pos]
  simp [h]

lemma lookupRide_some_key (l : List Ride) (q : ℤ) (rr : Ride)
    (h : lookupRide l q = some rr) : rr.rideId = q := by
  unfold lookupRide at h
  simpa using List.find?_some h

lemma lookupRide_putRide_ne (l : List Ride) (x : Ride) (q : ℤ)
    (h : x.rideId ≠ q) : lookupRide (putRide l x) q = lookupRide l q := by
  induction l with
  | nil =>
    show lookupRide [x] q = lookupRide [] q
    rw [lookupRide_cons_ne x [] q h]
  | cons a as ih =>
    by_cases ha : a.rideId = x.rideId
    · rw [show putRide (a :: as) x = x :: as from by simp [putRide, ha]]
      rw [lookupRide_cons_ne x as q h, lookupRide_cons_ne a as q (ha ▸ h)]
    · rw [show putRide (a :: as) x = a :: putRide as x from by
        simp [putRide, ha]]
      by_cases haq : a.rideId = q
      · rw [lookupRide_cons_eq a _ q haq, lookupRide_cons_eq a as q haq]
      · rw [lookupRide_cons_ne a _ q haq, lookupRide_cons_ne a as q haq, ih]

lemma lookupRide_putRide_self (l : List Ride) (x : Ride) (q : ℤ)
    (hx : x.rideId = q) (h : (lookupRide l q).isSome) :
    lookupRide (putRide l x) q = some x := by
  induction l with
  | nil => simp [lookupRide] at h
  | cons a as ih =>
    by_cases ha : a.rideId = x.rideId
    · rw [show putRide (a :: as) x = x :: as from by simp [putRide, ha]]
      exact lookupRide_cons_eq x as q hx
    · rw [show putRide (a :: as) x = a :: putRide as x from by
        simp [putRide, ha]]
      by_cases haq : a.rideId = q
      · exact absurd (haq.trans hx.symm) ha
      · rw [lookupRide_cons_ne a _ q haq]
        rw [lookupRide_cons_ne a as q haq] at h
        exact ih h

lemma lookupRide_append_single_ne (l : List Ride) (x : Ride) (q : ℤ)
    (h : x.rideId ≠ q) : lookupRide (l ++ [x]) q = lookupRide l q := by
  induction l with
  | nil =>
    show lookupRide [x] q = lookupRide [] q
    rw [lookupRide_cons_ne x [] q h]
  | cons a as ih =>
    by_cases haq : a.rideId = q
    · rw [List.cons_append, lookupRide_cons_eq a _ q haq,
        lookupRide_cons_eq a as q haq]
    · rw [List.cons_append, lookupRide_cons_ne a _ q haq,
        lookupRide_cons_ne a as q haq, ih]

lemma lookupRide_addRide_ne (l : List Ride) (x : Ride) (q : ℤ)
    (h : x.rideId ≠ q) : lookupRide (addRide l x) q = lookupRide l q := by
  unfold addRide
  by_cases hp : (lookupRide l x.rideId).isSome
  · rw [if_pos hp]
  · rw [if_neg hp]
    exact lookupRide_append_single_ne l x q h

/-- C7: while a ride is active, `startRide` is a no-op leaving the whole
program state unchanged (no new `rideId`, no duplicate subscriptions, no
buffer reset); while idle, `stopRide` is a no-op. -/
theorem startRide_stopRide_noop (s : AppState) (now : ℤ) (g f : Bool) :
    (s.currentRideId ≠ none → startRide s now g = s)
    ∧ (s.currentRideId = none → stopRide s now f = s) := by
  constructor
  · intro h
    cases hc : s.currentRideId with
    | none => exact absurd hc h
    | some r => simp [startRide, hc]
  · intro h
    simp [stopRide, h]

/-- Witness for C7 at concrete active and idle states. -/
theorem startRide_stopRide_noop_witness :
    startRide ⟨some 5, [], [], none, some 5, false, true, 0, [], [], [],
        Status.recordingWaitingGps⟩ 99 true
      = ⟨some 5, [], [], none, some 5, false, true, 0, [], [], [],
        Status.recordingWaitingGps⟩
    ∧ stopRide ⟨none, [], [], none, none, false, false, 0, [], [], [],
        Status.waitingGps⟩ 99 true
      = ⟨none, [], [], none, none, false, false, 0, [], [], [],
        Status.waitingGps⟩ :=
  ⟨(startRide_stopRide_noop _ 99 true true).1 (by simp),
   (startRide_stopRide_noop _ 99 true true).2 (by simp)⟩

/-- C6: on an active ride, every execution path of `stopRide` — including a
failing persistence call — ends with the in-memory ride state cleared
(`currentRideId`, collected points, accelerometer buffer, latest fix) and
the subscriptions and interval torn down, i.e. the machine is Idle.  On the
failure path the error is reported on the status channel and the aborted
transaction leaves both stores unchanged; the flush is not retried. -/
theorem stopRide_always_clears (s : AppState) (now : ℤ) (dbFail : Bool)
    (r : ℤ) (hact : s.currentRideId = some r) :
    (stopRide s now dbFail).currentRideId = none
    ∧ (stopRide s now dbFail).currentRideDataPoints = []
    ∧ (stopRide s now dbFail).accelerometerBuffer = []
    ∧ (stopRide s now dbFail).latestGpsPosition = none
    ∧ (stopRide s now dbFail).watchId = none
    ∧ (stopRide s now dbFail).motionListenerActive = false
    ∧ (stopRide s now dbFail).dataCollectionInterval = false
    ∧ (dbFail = true →
        (stopRide s now dbFail).status = Status.errorSavingRide
        ∧ (stopRide s now dbFail).rides = s.rides
        ∧ (stopRide s now dbFail).rideDataPoints = s.rideDataPoints) := by
  cases dbFail with
  | true => simp [stopRide, hact]
  | false =>
    cases hlook : lookupRide s.rides r with
    | none => simp [stopRide, hact, hlook]
    | some rr => simp [stopRide, hact, hlook]

/-- Witness for C6 on a concrete active state with a failing flush. -/
theorem stopRide_always_clears_witness :
    (stopRide ⟨some 100, [], [2], some ⟨51, -114, none, 5, 1000⟩, some 100,
        true, true, 0, [⟨100, 100, none, 0, 0, "active"⟩], [], [],
        Status.recordingWaitingGps⟩ 5100 true).currentRideId = none :=
  (stopRide_always_clears _ 5100 true 100 rfl).1

/-- One step of any event preserves a completed ride's stored record and
cannot re-activate its identifier, provided any `start` in the step carries
a fresh clock value (a later `Date.now()` differs from the old `rideId`). -/
lemma step_preserves_ride (r : ℤ) (s : AppState) (op : Op)
    (hc : s.currentRideId ≠ some r)
    (hop : ∀ t g, op = Op.start t g → t ≠ r) :
    lookupRide (step s op).rides r = lookupRide s.rides r
    ∧ (step s op).currentRideId ≠ some r := by
  cases op with
  | start t g =>
    have htr : t ≠ r := hop t g rfl
    cases hcur : s.currentRideId with
    | some rid =>
      constructor
      · simp [step, startRide, hcur]
      · simp only [step, startRide, hcur]
        rw [← hcur]
        exact hc
    | none =>
      constructor
      · simp only [step, startRide, hcur]
        exact lookupRide_addRide_ne s.rides _ r htr
      · simp [step, startRide, hcur, htr]
  | stop t f =>
    cases hcur : s.currentRideId with
    | none =>
      constructor
      · simp [step, stopRide, hcur]
      · simp only [step, stopRide, hcur]
        rw [← hcur]
        exact hc
    | some rid =>
      have hrid : rid ≠ r := by
        intro hcontra
        exact hc (by rw [hcur, hcontra])
      cases f with
      | true => simp [step, stopRide, hcur]
      | false =>
        cases hlook : lookupRide s.rides rid with
        | none => simp [step, stopRide, hcur, hlook]
        | some rr =>
          have hrr : rr.rideId = rid := lookupRide_some_key s.rides rid rr hlook
          constructor
          · simp only [step, stopRide, hcur, hlook]
            exact lookupRide_putRide_ne s.rides _ r (by simpa [hrr] using hrid)
          · simp [step, stopRide, hcur, hlook]
  | tick newId =>
    cases hcur : s.currentRideId with
    | none =>
      constructor
      · simp [step, processCombinedDataPoint, hcur]
      · simp only [step, processCombinedDataPoint, hcur]
        rw [← hcur]
        exact hc
    | some rid =>
      cases hpos : s.latestGpsPosition with
      | none =>
        constructor
        · simp [step, processCombinedDataPoint, hcur, hpos]
        · simp only [step, processCombinedDataPoint, hcur, hpos]
          rw [← hcur]
          exact hc
      | some pos =>
        constructor
        · simp [step, processCombinedDataPoint, hcur, hpos]
        · simp only [step, processCombinedDataPoint, hcur, hpos]
          rw [← hcur]
          exact hc
  | motion z =>
    cases z with
    | none =>
      exact ⟨rfl, hc⟩
    | some v =>
      constructor
      · simp [step, handleMotion]
      · simpa [step, handleMotion] using hc
  | fix pos =>
    constructor
    · simp [step, gpsSuccess]
    · simpa [step, gpsSuccess] using hc

lemma steps_preserve_ride (r : ℤ) (ops : List Op) (s : AppState)
    (hc : s.currentRideId ≠ some r)
    (hops : ∀ t g, Op.start t g ∈ ops → t ≠ r) :
    lookupRide (steps s ops).rides r = lookupRide s.rides r := by
  induction ops generalizing s with
  | nil => rfl
  | cons op rest ih =>
    have h1 := step_preserves_ride r s op hc
      (fun t g hop => hops t g (by simp [hop]))
    rw [steps, ih (step s op) h1.2 (fun t g hm => hops t g (by simp [hm])),
      h1.1]

/-- C5: stopping an active ride persists the final aggregate exactly once —
the stored record for the ride becomes `status = "completed"` with
`endTime = now`, `duration = ⌊(now - startTime) / 1000⌋` seconds and
`totalDataPoints` equal to the number of points collected in memory — and
the record is never mutated by any later event sequence (later `start`
events carry fresh clock values, so they cannot reuse the finished
`rideId`).  The single `now` argument models the `Date.now()` reads of the
finalisation, which happen in one synchronous expression. -/
theorem stopRide_finalizes_once (s : AppState) (now r : ℤ) (rr : Ride)
    (ops : List Op)
    (hact : s.currentRideId = some r)
    (hlook : lookupRide s.rides r = some rr)
    (hops : ∀ t g, Op.start t g ∈ ops → t ≠ r) :
    lookupRide (steps (stopRide s now false) ops).rides r
      = some { rr with endTime := some now,
                       duration := Int.fdiv (now - rr.startTime) 1000,
                       totalDataPoints := s.currentRideDataPoints.length,
                       status := "completed" } := by
  have hrr : rr.rideId = r := lookupRide_some_key s.rides r rr hlook
  have hstop : lookupRide (stopRide s now false).rides r
      = some { rr with endTime := some now,
                       duration := Int.fdiv (now - rr.startTime) 1000,
                       totalDataPoints := s.currentRideDataPoints.length,
                       status := "completed" } := by
    simp only [stopRide, hact, Bool.false_eq_true, if_false, hlook]
    exact lookupRide_putRide_self s.rides _ r (by simpa using hrr)
      (by rw [hlook]; rfl)
  have hidle : (stopRide s now false).currentRideId = none := by
    simp only [stopRide, hact, Bool.false_eq_true, if_false, hlook]
  rw [steps_preserve_ride r ops _ (by rw [hidle]; simp) hops, hstop]

/-- Witness for C5: a concrete active ride, stopped at `now = 5100`, ends
with the completed record (duration 5 s) in the store. -/
theorem stopRide_finalizes_once_witness :
    lookupRide (steps (stopRide ⟨some 100, [], [], none, some 100, true,
        true, 0, [⟨100, 100, none, 0, 0, "active"⟩], [], [],
        Status.recordingWaitingGps⟩ 5100 false) []).rides 100
      = some ⟨100, 100, some 5100, 5, 0, "completed"⟩ := by
  have h := stopRide_finalizes_once ⟨some 100, [], [], none, some 100, true,
      true, 0, [⟨100, 100, none, 0, 0, "active"⟩], [], [],
      Status.recordingWaitingGps⟩ 5100 100 ⟨100, 100, none, 0, 0, "active"⟩
    [] rfl (by rfl) (by simp)
  simpa using h

/-- C10: a fusion tick does not consume the latest-fix slot.  After a tick
the slot still holds the same fix, so a second tick with no new fix in
between appends a second point with identical `timestamp`, `latitude` and
`longitude` (and `rideId`, altitude, accuracy) — only the fresh `id` and
the `roughnessValue` (recomputed over the drained, now-empty buffer, hence
`0`) can differ.  `gpsSuccess` is the only writer of the slot. -/
theorem tick_does_not_consume_fix (s : AppState) (r : ℤ) (pos : GeoPosition)
    (id1 id2 : String)
    (h1 : s.currentRideId = some r) (h2 : s.latestGpsPosition = some pos) :
    (processCombinedDataPoint s id1).latestGpsPosition = some pos
    ∧ (processCombinedDataPoint s id1).currentRideDataPoints
      = s.currentRideDataPoints ++
        [⟨id1, r, pos.timestamp, pos.latitude, pos.longitude, pos.altitude,
          pos.accuracy, calculateVariance s.accelerometerBuffer⟩]
    ∧ (processCombinedDataPoint (processCombinedDataPoint s id1)
        id2).currentRideDataPoints
      = s.currentRideDataPoints ++
        [⟨id1, r, pos.timestamp, pos.latitude, pos.longitude, pos.altitude,
          pos.accuracy, calculateVariance s.accelerometerBuffer⟩,
         ⟨id2, r, pos.timestamp, pos.latitude, pos.longitude, pos.altitude,
          pos.accuracy, 0⟩] := by
  refine ⟨?_, ?_, ?_⟩
  · simp [processCombinedDataPoint, h1, h2]
  · simp [processCombinedDataPoint, h1, h2]
  · simp [processCombinedDataPoint, h1, h2, calculateVariance]

/-- Witness for C10 on a concrete recording state holding one fix. -/
theorem tick_does_not_consume_fix_witness :
    (processCombinedDataPoint ⟨some 7, [], [1, 2],
        some ⟨51, -114, none, 5, 1000⟩, some 7, true, true, 0, [], [], [],
        Status.recordingWaitingGps⟩ "u1").latestGpsPosition
      = some ⟨51, -114, none, 5, 1000⟩ :=
  (tick_does_not_consume_fix ⟨some 7, [], [1, 2],
      some ⟨51, -114, none, 5, 1000⟩, some 7, true, true, 0, [], [], [],
      Status.recordingWaitingGps⟩ 7 ⟨51, -114, none, 5, 1000⟩ "u1" "u2"
    rfl rfl).1

/-- Witness for C8: two constant samples of `10` from filter state `0`
yield emissions `0.8·10 = 8` and `0.8²·10 = 6.4`. -/
theorem handleMotion_constant_stream_witness :
    (steps ⟨none, [], [], none, none, false, false, 0, [], [], [],
        Status.waitingGps⟩
      (List.replicate 2 (Op.motion (some 10)))).accelerometerBuffer
      = [8, 6.4] := by
  have h := (handleMotion_constant_stream 2 10 ⟨none, [], [], none, none,
      false, false, 0, [], [], [], Status.waitingGps⟩ rfl).1
  rw [h]
  norm_num [HPF_ALPHA, List.range_succ]
